import Mathlib

/-!
Verification development for the QChat relay server and client.

The definitions below are shallow embeddings of:
  - the relay server (src/server/index.js): session registry, offline queue,
    authentication, relay and close handlers;
  - the client connection state machine (src/services/socketService.ts);
  - the client crypto layer (services/cryptoService.ts): base64 transport
    encoding, the encrypt/decrypt pipeline around the platform AES-GCM
    primitive (the primitive itself is an external collaborator and is
    abstracted as an authenticated-encryption scheme parameter).

JavaScript maps and plain objects keyed by userId are embedded as association
lists (preserving insertion order, as JS Map iteration does); WebSocket
connection handles are opaque naturals with an environment function giving
each handle's readyState (1 = OPEN); fs.writeFileSync is given an explicit
success flag, with its possible throw surfaced as an Option value.
-/

namespace QChat

/-- Lookup in an association list, first match wins (JS Map.get / obj[k]). -/
def alGet {V : Type} : List (String × V) → String → Option V
  | [], _ => none
  | (k, v) :: rest, key => if k = key then some v else alGet rest key

/-- JS Map.set / obj[k] = v: replace the existing entry in place (keeping
insertion order) or append a new entry at the end. -/
def alSet {V : Type} : List (String × V) → String → V → List (String × V)
  | [], key, v => [(key, v)]
  | (k, w) :: rest, key, v =>
    if k = key then (key, v) :: rest else (k, w) :: alSet rest key v

/-- JS Map.delete / delete obj[k]: remove the entry for the key. -/
def alErase {V : Type} : List (String × V) → String → List (String × V)
  | [], _ => []
  | (k, v) :: rest, key => if k = key then rest else (k, v) :: alErase rest key

theorem alGet_alSet_self {V : Type} (l : List (String × V)) (k : String) (v : V) :
    alGet (alSet l k v) k = some v := by
  induction l with
  | nil => simp [alSet, alGet]
  | cons p rest ih =>
    obtain ⟨k1, v1⟩ := p
    by_cases h : k1 = k <;> simp [alSet, alGet, h, ih]

theorem alGet_alSet_ne {V : Type} (l : List (String × V)) (k k1 : String) (v : V)
    (h : k ≠ k1) : alGet (alSet l k v) k1 = alGet l k1 := by
  induction l with
  | nil => simp [alSet, alGet, h]
  | cons p rest ih =>
    obtain ⟨k2, v2⟩ := p
    by_cases h2 : k2 = k
    · subst h2; simp [alSet, alGet, h]
    · simp [alSet, alGet, h2, ih]

theorem alErase_alSet_of_absent {V : Type} (l : List (String × V)) (k : String) (v : V)
    (h : alGet l k = none) : alErase (alSet l k v) k = l := by
  induction l with
  | nil => simp [alSet, alErase]
  | cons p rest ih =>
    obtain ⟨k1, v1⟩ := p
    by_cases h1 : k1 = k
    · simp [alGet, h1] at h
    · simp [alGet, h1] at h
      simp [alSet, alErase, h1, ih h]

theorem alSet_alSet {V : Type} (l : List (String × V)) (k : String) (v w : V) :
    alSet (alSet l k v) k w = alSet l k w := by
  induction l with
  | nil => simp [alSet]
  | cons p rest ih =>
    obtain ⟨k1, v1⟩ := p
    by_cases h : k1 = k <;> simp [alSet, h, ih]

theorem alSet_keys_of_absent {V : Type} (l : List (String × V)) (k : String) (v : V)
    (h : alGet l k = none) : (alSet l k v).map Prod.fst = l.map Prod.fst ++ [k] := by
  induction l with
  | nil => simp [alSet]
  | cons p rest ih =>
    obtain ⟨k1, v1⟩ := p
    by_cases h1 : k1 = k
    · simp [alGet, h1] at h
    · simp [alGet, h1] at h
      simp [alSet, h1, ih h]

theorem alSet_keys_of_present {V : Type} (l : List (String × V)) (k : String) (v : V)
    (h : (alGet l k).isSome) : (alSet l k v).map Prod.fst = l.map Prod.fst := by
  induction l with
  | nil => simp [alGet] at h
  | cons p rest ih =>
    obtain ⟨k1, v1⟩ := p
    by_cases h1 : k1 = k
    · subst h1; simp [alSet]
    · simp [alGet, h1] at h
      simp [alSet, h1, ih h]

theorem alGet_isSome_of_mem_keys {V : Type} (l : List (String × V)) (k : String)
    (h : k ∈ l.map Prod.fst) : (alGet l k).isSome := by
  induction l with
  | nil => simp at h
  | cons p rest ih =>
    obtain ⟨k1, v1⟩ := p
    simp at h
    by_cases h2 : k1 = k
    · simp [alGet, h2]
    · simp [alGet, h2]
      rcases h with h1 | h1
      · exact absurd h1.symm h2
      · exact ih (by simpa using h1)

theorem alSet_nodup_keys {V : Type} (l : List (String × V)) (k : String) (v : V)
    (h : (l.map Prod.fst).Nodup) : ((alSet l k v).map Prod.fst).Nodup := by
  rcases ho : alGet l k with _ | w
  · rw [alSet_keys_of_absent l k v ho]
    rw [List.nodup_append]
    refine ⟨h, List.nodup_singleton k, ?_⟩
    intro a ha hak
    simp at hak
    subst hak
    have := alGet_isSome_of_mem_keys l a ha
    rw [ho] at this
    simp at this
  · rw [alSet_keys_of_present l k v (by simp [ho])]
    exact h

theorem alErase_sublist {V : Type} (l : List (String × V)) (k : String) :
    (alErase l k).Sublist l := by
  induction l with
  | nil => simp [alErase]
  | cons p rest ih =>
    obtain ⟨k1, v1⟩ := p
    by_cases h : k1 = k
    · simp [alErase, h]
    · simp only [alErase, h, if_neg]
      exact List.Sublist.cons₂ _ ih

theorem alErase_nodup_keys {V : Type} (l : List (String × V)) (k : String)
    (h : (l.map Prod.fst).Nodup) : ((alErase l k).map Prod.fst).Nodup :=
  ((alErase_sublist l k).map Prod.fst).nodup h

theorem alGet_mem {V : Type} (l : List (String × V)) (k : String) (v : V)
    (h : alGet l k = some v) : (k, v) ∈ l := by
  induction l with
  | nil => simp [alGet] at h
  | cons p rest ih =>
    obtain ⟨k1, v1⟩ := p
    by_cases h1 : k1 = k
    · subst h1
      simp [alGet] at h
      simp [h]
    · simp [alGet, h1] at h
      simp [ih h]

theorem alSet_mem {V : Type} (l : List (String × V)) (k : String) (v : V)
    (p : String × V) (h : p ∈ alSet l k v) : p = (k, v) ∨ p ∈ l := by
  induction l with
  | nil => simp [alSet] at h; simp [h]
  | cons q rest ih =>
    obtain ⟨k1, v1⟩ := q
    by_cases h1 : k1 = k
    · subst h1
      simp [alSet] at h
      rcases h with h | h
      · simp [h]
      · simp [h]
    · simp [alSet, h1] at h
      rcases h with h | h
      · simp [h]
      · rcases ih h with h2 | h2
        · simp [h2]
        · simp [h2]

theorem alSet_eq_self {V : Type} (l : List (String × V)) (k : String) (v : V)
    (h : alGet l k = some v) : alSet l k v = l := by
  induction l with
  | nil => simp [alGet] at h
  | cons p rest ih =>
    obtain ⟨k1, v1⟩ := p
    by_cases h1 : k1 = k
    · subst h1
      simp [alGet] at h
      simp [alSet, h]
    · simp [alGet, h1] at h
      simp [alSet, h1, ih h]

theorem filterMap_some_eq_map {α β : Type} (f : α → β) (l : List α) :
    l.filterMap (fun a => some (f a)) = l.map f := by
  induction l with
  | nil => simp
  | cons a rest ih => simp [ih]

/-! ## Server data model (src/server/index.js) -/

/-- One entry of the session registry: the value stored in the clients map at
src/server/index.js:194 (connection handle, optional username, optional
declared public key; a missing or empty key is falsy in JS). -/
structure ClientInfo where
  conn : Nat
  username : Option String
  publicKey : Option String
deriving DecidableEq

/-- One queued offline envelope (src/server/index.js:70). -/
structure QueuedMsg where
  type : String
  payload : String
  queuedAt : Nat
deriving DecidableEq

/-- Wire messages the server sends (the JSON.stringify payloads). -/
inductive WireMsg where
  | pong : WireMsg
  | registerResult (success : Bool) (reason : Option String) : WireMsg
  | authResult (success : Bool) (reason : Option String) : WireMsg
  | forceLogout : WireMsg
  | onlineUsersList (userIds : List String) : WireMsg
  | userKeysList (keys : List (String × String)) : WireMsg
  | envelope (type : String) (payload : String) : WireMsg
  | statusUpdate (userId : String) (status : String) (publicKey : Option String) : WireMsg
  | changePasswordResult (success : Bool) (reason : Option String) : WireMsg
deriving DecidableEq

/-- Observable actions of a server handler, in execution order: a socket
send, a socket close, or installing a session in the registry
(clients.set at src/server/index.js:194). -/
inductive Action where
  | send (conn : Nat) (msg : WireMsg) : Action
  | close (conn : Nat) : Action
  | installSession (userId : String) (conn : Nat) : Action
deriving DecidableEq

/-- In-memory server state: clients map, offline queue cache, accounts cache
(accounts map userId to passwordHash). -/
structure ServerState where
  clients : List (String × ClientInfo)
  offlineStore : List (String × List QueuedMsg)
  accounts : List (String × String)
deriving DecidableEq

/-- Per-connection mutable state of the message handler closure
(src/server/index.js:112-113); currentUserId is a JS string-or-null, with ""
standing for the falsy values. -/
structure ConnCtx where
  currentUserId : String
  authenticated : Bool
deriving DecidableEq

/-- JS truthiness of an optional string (undefined, null and "" are falsy). -/
def strTruthy : Option String → Bool
  | none => false
  | some s => s ≠ ""

/-- queueOfflineMessage (src/server/index.js:65-72), cache update only:
ignore a falsy targetUserId, otherwise append the envelope to the per-user
list (creating it if absent). -/
def queueOfflineMessage (store : List (String × List QueuedMsg))
    (targetUserId mtype payload : String) (now : Nat) :
    List (String × List QueuedMsg) :=
  if targetUserId = "" then store
  else
    match alGet store targetUserId with
    | none => alSet store targetUserId [⟨mtype, payload, now⟩]
    | some q => alSet store targetUserId (q ++ [⟨mtype, payload, now⟩])

/-- deliverQueuedMessages (src/server/index.js:74-88): if the user has a
nonempty queue, send each queued envelope (type and payload as stored) when
the socket is open — the readyState check sits inside the loop — then delete
the entire per-user queue regardless of whether the sends happened. -/
def deliverQueuedMessages (readyState : Nat → Nat)
    (store : List (String × List QueuedMsg)) (userId : String) (ws : Nat) :
    List (String × List QueuedMsg) × List (Nat × WireMsg) :=
  match alGet store userId with
  | none => (store, [])
  | some msgs =>
    if msgs.isEmpty then (store, [])
    else
      (alErase store userId,
        msgs.filterMap fun m =>
          if readyState ws = 1 then some (ws, WireMsg.envelope m.type m.payload) else none)

/-- Scenario for C2: a sequence of envelopes relayed in order to an offline
target, each appended by queueOfflineMessage (the offline branch of the relay
handler, src/server/index.js:279). -/
def relayOfflineSeq (store0 : List (String × List QueuedMsg)) (target : String)
    (es : List QueuedMsg) : List (String × List QueuedMsg) :=
  es.foldl (fun s m => queueOfflineMessage s target m.type m.payload m.queuedAt) store0

/-- broadcastStatus (src/server/index.js:90-105): send STATUS_UPDATE to every
registered client except the user themselves, skipping non-open sockets. -/
def broadcastStatus (readyState : Nat → Nat) (clients : List (String × ClientInfo))
    (userId status : String) (publicKey : Option String) : List Action :=
  clients.filterMap fun p =>
    if p.1 = userId then none
    else if readyState p.2.conn = 1 then
      some (Action.send p.2.conn (WireMsg.statusUpdate userId status publicKey))
    else none

/-- The input fields the AUTH handler reads from the parsed message
(src/server/index.js:149-152); absent/falsy strings are "". -/
structure AuthMsg where
  userId : String
  password : String
  publicKey : Option String
  username : Option String
deriving DecidableEq

/-- The AUTH branch of the server message handler (src/server/index.js:149-243).
Validation happens before any mutation; on success: kick a prior open session
(FORCE_LOGOUT then close), install the new session, send ONLINE_USERS_LIST
and USER_KEYS_LIST to the new connection, flush the offline queue, broadcast
online presence, then acknowledge with AUTH_RESULT success. The hash
parameter abstracts crypto.createHash("sha256"). -/
def authHandler (hash : String → String) (readyState : Nat → Nat)
    (st : ServerState) (ctx : ConnCtx) (ws : Nat) (msg : AuthMsg) :
    ServerState × ConnCtx × List Action :=
  let ctx1 : ConnCtx := { ctx with currentUserId := msg.userId }
  if msg.userId = "" ∨ msg.password = "" then
    (st, ctx1, [Action.send ws (WireMsg.authResult false (some "INVALID_INPUT"))])
  else
    match alGet st.accounts msg.userId with
    | none => (st, ctx1, [Action.send ws (WireMsg.authResult false (some "NOT_REGISTERED"))])
    | some storedHash =>
      if storedHash ≠ hash msg.password then
        (st, ctx1, [Action.send ws (WireMsg.authResult false (some "BAD_PASSWORD"))])
      else
        let kickActions : List Action :=
          match alGet st.clients msg.userId with
          | some old =>
            if readyState old.conn = 1 then
              [Action.send old.conn WireMsg.forceLogout, Action.close old.conn]
            else []
          | none => []
        let clients1 := alSet st.clients msg.userId ⟨ws, msg.username, msg.publicKey⟩
        let onlineUsers := (clients1.map Prod.fst).filter (fun id => id ≠ msg.userId)
        let userKeys := clients1.filterMap fun p =>
          if p.1 ≠ msg.userId ∧ strTruthy p.2.publicKey then
            p.2.publicKey.map fun k => (p.1, k)
          else none
        let flushed := deliverQueuedMessages readyState st.offlineStore msg.userId ws
        let statusSends := broadcastStatus readyState clients1 msg.userId "online" msg.publicKey
        ({ st with clients := clients1, offlineStore := flushed.1 },
          { ctx1 with authenticated := true },
          kickActions ++
            [Action.installSession msg.userId ws,
              Action.send ws (WireMsg.onlineUsersList onlineUsers),
              Action.send ws (WireMsg.userKeysList userKeys)] ++
            flushed.2.map (fun s => Action.send s.1 s.2) ++
            statusSends ++
            [Action.send ws (WireMsg.authResult true none)])

/-- The relay branch of the server message handler (src/server/index.js:246-283),
for message.type in the RELAY_TYPES list: ignore unauthenticated senders;
forward verbatim to an open target session; otherwise queue only CHAT,
FRIEND_REQUEST and FRIEND_ACCEPT, dropping the advisory types silently. -/
def relayHandler (readyState : Nat → Nat) (st : ServerState) (ctx : ConnCtx)
    (mtype targetUserId payload : String) (now : Nat) :
    ServerState × List Action :=
  if ¬ ctx.authenticated then (st, [])
  else
    let liveTarget :=
      match alGet st.clients targetUserId with
      | some t => if readyState t.conn = 1 then some t.conn else none
      | none => none
    match liveTarget with
    | some tconn => (st, [Action.send tconn (WireMsg.envelope mtype payload)])
    | none =>
      if mtype = "CHAT" ∨ mtype = "FRIEND_REQUEST" ∨ mtype = "FRIEND_ACCEPT" then
        ({ st with offlineStore := queueOfflineMessage st.offlineStore targetUserId mtype payload now },
          [])
      else (st, [])

/-- The ws close handler (src/server/index.js:337-356): remove the session
only when the registry still maps this user to the closing socket, then
broadcast offline presence; a stale close (socket mismatch) changes nothing. -/
def closeHandler (readyState : Nat → Nat) (st : ServerState) (ctx : ConnCtx)
    (ws : Nat) : ServerState × List Action :=
  if ctx.currentUserId = "" then (st, [])
  else
    match alGet st.clients ctx.currentUserId with
    | some ci =>
      if ci.conn = ws then
        let clients1 := alErase st.clients ctx.currentUserId
        ({ st with clients := clients1 },
          broadcastStatus readyState clients1 ctx.currentUserId "offline" none)
      else (st, [])
    | none => (st, [])

/-- Spec section 4.2: the post-authentication sequence exactly as the
specification enumerates it, written from the spec text for comparison with
the code's authHandler: (1) if a Session already exists for the userId, send
it FORCE_LOGOUT and close it; (2) install the new Session; (3) send the new
connection ONLINE_USERS_LIST of all other currently-registered userIds;
(4) send USER_KEYS_LIST mapping every other online user with a declared key
to that key (keyless entries omitted); (5) flush the offline queue in stored
order; (6) STATUS_UPDATE online to every other registered session; (7) reply
AUTH_RESULT success. -/
def specPostAuthActions (st : ServerState) (ws : Nat) (u : String)
    (username pk : Option String) : List Action :=
  let clients1 := alSet st.clients u ⟨ws, username, pk⟩
  (match alGet st.clients u with
    | some old => [Action.send old.conn WireMsg.forceLogout, Action.close old.conn]
    | none => []) ++
  [Action.installSession u ws] ++
  [Action.send ws (WireMsg.onlineUsersList
      ((clients1.map Prod.fst).filter (fun id => id ≠ u))),
    Action.send ws (WireMsg.userKeysList (clients1.filterMap fun p =>
      if p.1 ≠ u ∧ strTruthy p.2.publicKey then p.2.publicKey.map fun k => (p.1, k)
      else none))] ++
  ((alGet st.offlineStore u).getD []).map
    (fun m => Action.send ws (WireMsg.envelope m.type m.payload)) ++
  clients1.filterMap (fun p =>
    if p.1 = u then none
    else some (Action.send p.2.conn (WireMsg.statusUpdate u "online" pk))) ++
  [Action.send ws (WireMsg.authResult true none)]

/-! ## Durable-store effects (src/server/index.js:30-36, 65-72, 126-147)

fs.writeFileSync may throw; a writeOk flag models whether the write
succeeds. saveOfflineStore and saveAccounts wrap the write in try/catch and
only console.error on failure, so no exception ever escapes them. -/

/-- saveOfflineStore (src/server/index.js:30-36) with the disk made explicit:
returns the durable contents after the call — unchanged when the write
throws, since the catch block only logs. -/
def saveOfflineStore (writeOk : Bool) (diskContents store : List (String × List QueuedMsg)) :
    List (String × List QueuedMsg) :=
  if writeOk then store else diskContents

/-- queueOfflineMessage (src/server/index.js:65-72) with the durable write
tracked. The second component is the exception propagated to the caller:
always none, because saveOfflineStore swallows the write failure. -/
structure OfflineDisk where
  cache : List (String × List QueuedMsg)
  disk : List (String × List QueuedMsg)
deriving DecidableEq

def queueOfflineMessageDisk (writeOk : Bool) (st : OfflineDisk)
    (targetUserId mtype payload : String) (now : Nat) : OfflineDisk × Option String :=
  if targetUserId = "" then (st, none)
  else
    let cache1 := queueOfflineMessage st.cache targetUserId mtype payload now
    ({ cache := cache1, disk := saveOfflineStore writeOk st.disk cache1 }, none)

/-- The REGISTER branch of the server message handler
(src/server/index.js:126-147) with the durable accounts write tracked:
returns (accounts cache, accounts disk, actions). REGISTER_RESULT success is
sent whether or not the saveAccounts write was durable. -/
def registerHandler (hash : String → String) (writeOk : Bool)
    (accounts accountsDisk : List (String × String)) (ws : Nat)
    (userId password : String) :
    List (String × String) × List (String × String) × List Action :=
  if userId = "" ∨ password = "" then
    (accounts, accountsDisk,
      [Action.send ws (WireMsg.registerResult false (some "INVALID_INPUT"))])
  else
    match alGet accounts userId with
    | some _ =>
      (accounts, accountsDisk,
        [Action.send ws (WireMsg.registerResult false (some "USER_EXISTS"))])
    | none =>
      let accounts1 := alSet accounts userId (hash password)
      (accounts1, (if writeOk then accounts1 else accountsDisk),
        [Action.send ws (WireMsg.registerResult true none)])

/-! ## Client connection state machine (src/services/socketService.ts) -/

/-- The four connection states (src/services/socketService.ts:6). -/
inductive ConnState where
  | DISCONNECTED : ConnState
  | CONNECTING : ConnState
  | CONNECTED : ConnState
  | RECONNECTING : ConnState
deriving DecidableEq

/-- MAX_ATTEMPTS_PER_ENDPOINT (src/services/socketService.ts:47). -/
def MAX_ATTEMPTS_PER_ENDPOINT : Nat := 2

/-- The fields of SocketService that drive endpoint selection and retries
(src/services/socketService.ts:20,42-46). retryTimerPending records whether a
same-endpoint retry timer armed at src/services/socketService.ts:346 is
outstanding; that setTimeout handle is never stored, so no code path ever
cancels it. -/
structure ClientSM where
  state : ConnState
  endpointList : List String
  currentEndpointIndex : Nat
  endpointAttempts : Nat
  retryTimerPending : Bool
deriving DecidableEq

/-- tryNextEndpoint (src/services/socketService.ts:120-167): give up with
DISCONNECTED when the endpoint list is exhausted, otherwise enter CONNECTING
and attempt the current endpoint (the returned url). -/
def tryNextEndpoint (sm : ClientSM) : ClientSM × Option String :=
  if sm.currentEndpointIndex ≥ sm.endpointList.length then
    ({ sm with state := ConnState.DISCONNECTED }, none)
  else
    ({ sm with state := ConnState.CONNECTING },
      some (sm.endpointList.getD sm.currentEndpointIndex ""))

/-- connect (src/services/socketService.ts:99-118): a no-op when already
CONNECTED or CONNECTING; otherwise reset the endpoint index to 0, fall back
to the default endpoint list when none is configured, and attempt endpoint 0.
Nothing here clears an outstanding same-endpoint retry timer. -/
def connect (sm : ClientSM) : ClientSM × Option String :=
  if sm.state = ConnState.CONNECTED then (sm, none)
  else if sm.state = ConnState.CONNECTING then (sm, none)
  else
    let sm1 := { sm with currentEndpointIndex := 0 }
    let sm2 :=
      if sm1.endpointList = [] then { sm1 with endpointList := ["ws://localhost:8080"] }
      else sm1
    tryNextEndpoint sm2

/-- socket.onclose for a failed connection attempt
(src/services/socketService.ts:315-353): when the prior state was CONNECTED
the machine just drops to DISCONNECTED; otherwise, below the per-endpoint
maximum it increments the attempt counter, enters RECONNECTING and re-arms
the same endpoint (the returned url, via an uncancellable setTimeout), and at
the maximum it resets the counter and advances to the next endpoint. -/
def onCloseStep (sm : ClientSM) : ClientSM × Option String :=
  if sm.state = ConnState.CONNECTED then
    ({ sm with state := ConnState.DISCONNECTED }, none)
  else if sm.endpointAttempts < MAX_ATTEMPTS_PER_ENDPOINT then
    ({ sm with
        endpointAttempts := sm.endpointAttempts + 1,
        state := ConnState.RECONNECTING,
        retryTimerPending := true },
      some (sm.endpointList.getD sm.currentEndpointIndex ""))
  else
    tryNextEndpoint
      { sm with endpointAttempts := 0, currentEndpointIndex := sm.currentEndpointIndex + 1 }

/-- Iterate onCloseStep n times (every attempt fails), recording after each
step the url of the attempt it schedules (none when it gives up) and the
state it enters. -/
def failTraceS : ClientSM → Nat → List (Option String × ConnState) × ClientSM
  | sm, 0 => ([], sm)
  | sm, n + 1 =>
    let p := onCloseStep sm
    let r := failTraceS p.1 n
    ((p.2, p.1.state) :: r.1, r.2)

/-- The attempt schedule the spec prescribes for a list of endpoints that all
always fail (spec section 4.4): for each endpoint in order, one CONNECTING
attempt followed by exactly MAX_ATTEMPTS_PER_ENDPOINT same-endpoint retries
in state RECONNECTING; after the last endpoint, DISCONNECTED with no further
attempt. -/
def expectedSchedule : List String → List (Option String × ConnState)
  | [] => [(none, ConnState.DISCONNECTED)]
  | u :: rest =>
    ((some u, ConnState.CONNECTING) ::
      List.replicate MAX_ATTEMPTS_PER_ENDPOINT (some u, ConnState.RECONNECTING)) ++
      expectedSchedule rest

/-! ## Client crypto layer (services/cryptoService.ts)

Byte buffers are lists of naturals below 256; JS strings are lists of
characters. window.btoa / window.atob (used by arrayBufferToBase64 and
base64ToArrayBuffer) are embedded as executable base64 functions; atob
returns none where the platform function throws. The AES-GCM primitive of
window.crypto.subtle is an external collaborator, abstracted as an
authenticated-encryption scheme whose decrypt is none exactly where the
platform rejects (tampered or wrongly keyed input); likewise TextEncoder and
TextDecoder are abstract encode and decode parameters. -/

abbrev Bytes := List Nat

/-- The base64 alphabet in order. -/
def b64Chars : List Char :=
  ("ABCDEFGHIJKLMNOPQRSTUVWXYZabcdefghijklmnopqrstuvwxyz0123456789+/").data

/-- The base64 digit for a 6-bit value. -/
def b64Char (n : Nat) : Char := b64Chars.getD n 'A'

/-- Position of a character in the base64 alphabet, if any. -/
def b64Index (c : Char) : Option Nat := b64Chars.findIdx? (fun x => x = c)

/-- window.btoa on a byte buffer (as used by arrayBufferToBase64,
cryptoService.ts:4-12): standard base64 with '=' padding. -/
def btoa : Bytes → List Char
  | [] => []
  | [b1] => [b64Char (b1 / 4), b64Char (b1 % 4 * 16), '=', '=']
  | [b1, b2] => [b64Char (b1 / 4), b64Char (b1 % 4 * 16 + b2 / 16), b64Char (b2 % 16 * 4), '=']
  | b1 :: b2 :: b3 :: rest =>
    b64Char (b1 / 4) :: b64Char (b1 % 4 * 16 + b2 / 16) ::
      b64Char (b2 % 16 * 4 + b3 / 64) :: b64Char (b3 % 64) :: btoa rest

/-- window.atob (as used by base64ToArrayBuffer, cryptoService.ts:14-22):
none models the DOMException the platform throws on malformed input. -/
def atob : List Char → Option Bytes
  | [] => some []
  | c1 :: c2 :: c3 :: c4 :: rest =>
    match b64Index c1, b64Index c2 with
    | some n1, some n2 =>
      if c3 = '=' then
        if c4 = '=' ∧ rest = [] then some [n1 * 4 + n2 / 16] else none
      else
        match b64Index c3 with
        | some n3 =>
          if c4 = '=' then
            if rest = [] then some [n1 * 4 + n2 / 16, n2 % 16 * 16 + n3 / 4] else none
          else
            match b64Index c4, atob rest with
            | some n4, some tl =>
              some ((n1 * 4 + n2 / 16) :: (n2 % 16 * 16 + n3 / 4) :: (n3 % 4 * 64 + n4) :: tl)
            | _, _ => none
        | none => none
    | _, _ => none
  | _ => none

/-- JavaScript String.prototype.split with a single-character separator. -/
def jsSplit (sep : Char) : List Char → List (List Char)
  | [] => [[]]
  | c :: rest =>
    match jsSplit sep rest with
    | [] => [[]]
    | h :: t => if c = sep then [] :: h :: t else (c :: h) :: t

/-- An authenticated-encryption scheme: the contract of AES-GCM as exposed by
window.crypto.subtle.encrypt and .decrypt (key, iv, data); dec is none where
the platform decrypt rejects. -/
structure AeadScheme (Key : Type) where
  enc : Key → Bytes → Bytes → Bytes
  dec : Key → Bytes → Bytes → Option Bytes

/-- The fixed sentinel CryptoService.decrypt returns on cryptographic
failure (cryptoService.ts:152). -/
def decryptFailedSentinel : List Char := ("[Decryption Failed]").data

namespace CryptoService

/-- CryptoService.encrypt (cryptoService.ts:109-123): none models the throw
when no shared key is cached for the recipient; otherwise AES-GCM-encrypt the
encoded content under a fresh iv and return base64(iv) ++ parts joined by the
fixed ':' delimiter. encode stands for TextEncoder().encode and iv for the
12 random bytes of crypto.getRandomValues. -/
def encrypt {Key : Type} (A : AeadScheme Key) (encode : List Char → Bytes)
    (sharedKeys : String → Option Key) (iv : Bytes)
    (content : List Char) (recipientId : String) : Option (List Char) :=
  match sharedKeys recipientId with
  | none => none
  | some key => some (btoa iv ++ ':' :: btoa (A.enc key iv (encode content)))

/-- CryptoService.decrypt (cryptoService.ts:125-154): with no cached key for
the sender, return the input unchanged; with a key, split on ':' and return
the input unchanged unless there are exactly two parts; then base64-decode
and AES-GCM-decrypt, and on any failure (malformed base64 or rejected
ciphertext, both caught by the try/catch) return the fixed sentinel. decode
stands for TextDecoder().decode. -/
def decrypt {Key : Type} (A : AeadScheme Key) (decode : Bytes → List Char)
    (sharedKeys : String → Option Key)
    (encryptedContent : List Char) (senderId : String) : List Char :=
  match sharedKeys senderId with
  | none => encryptedContent
  | some key =>
    let parts := jsSplit ':' encryptedContent
    if parts.length = 2 then
      match atob (parts.getD 0 []), atob (parts.getD 1 []) with
      | some ivBytes, some ctBytes =>
        match A.dec key ivBytes ctBytes with
        | some pt => decode pt
        | none => decryptFailedSentinel
      | _, _ => decryptFailedSentinel
    else encryptedContent

end CryptoService

/-- The fields of a chat message that the encrypted transport reads or
rewrites (src/types.ts, as used by sendMessage). -/
structure ChatMessage where
  content : List Char
  senderId : String
deriving DecidableEq

/-- SocketService.sendMessage (src/services/socketService.ts:451-477): when
the socket is open, try to encrypt the content for the recipient and fall
back to the original plaintext when encryption throws (no cached shared
key); send a CHAT envelope carrying the message with the chosen content.
When the socket is not open, throw "Network disconnected". -/
def sendMessage {Key : Type} (A : AeadScheme Key) (encode : List Char → Bytes)
    (sharedKeys : String → Option Key) (iv : Bytes) (socketOpen : Bool)
    (message : ChatMessage) (recipientId : String) :
    Except String (String × ChatMessage) :=
  if socketOpen then
    let contentToSend :=
      (CryptoService.encrypt A encode sharedKeys iv message.content recipientId).getD
        message.content
    Except.ok (recipientId, { message with content := contentToSend })
  else Except.error "Network disconnected"

/-! ### Concrete instances used by witnesses and counterexamples -/

/-- A trivial authenticated-encryption scheme over the unit key type. -/
def idAead : AeadScheme Unit :=
  { enc := fun _ _ m => m, dec := fun _ _ c => some c }

/-- A concrete text encoder: characters to their code points. -/
def charEncode (s : List Char) : Bytes := s.map Char.toNat

/-- A concrete text decoder matching charEncode. -/
def charDecode (bs : Bytes) : List Char := bs.map Char.ofNat

/-- A key cache with shared keys for alice and bob only. -/
def demoKeys : String → Option Unit :=
  fun uid => if uid = "alice" ∨ uid = "bob" then some () else none

/-- An empty key cache: no shared key for anyone. -/
def noKeys : String → Option Unit := fun _ => none

/-- A concrete 12-byte iv. -/
def iv0 : Bytes := [0, 1, 2, 3, 4, 5, 6, 7, 8, 9, 10, 11]

/-! ### Base64 and split lemmas -/

theorem b64Index_b64Char_small : ∀ n < 64, b64Index (b64Char n) = some n := by decide

theorem b64Char_ne_eqsign (n : Nat) : b64Char n ≠ '=' := by
  rcases Nat.lt_or_ge n 64 with h | h
  · revert n h
    decide
  · unfold b64Char
    rw [List.getD_eq_default]
    · decide
    · have : b64Chars.length = 64 := by decide
      omega

theorem b64Char_ne_colon (n : Nat) : b64Char n ≠ ':' := by
  rcases Nat.lt_or_ge n 64 with h | h
  · revert n h
    decide
  · unfold b64Char
    rw [List.getD_eq_default]
    · decide
    · have : b64Chars.length = 64 := by decide
      omega

/-- Base64 output never contains the ':' delimiter, so the iv and ciphertext
parts of an encrypted transport string are recoverable by splitting. -/
theorem colon_not_mem_btoa (bs : Bytes) : ':' ∉ btoa bs := by
  induction bs using btoa.induct with
  | case1 => simp [btoa]
  | case2 b1 =>
    intro hc
    simp [btoa] at hc
    rcases hc with hc | hc <;> exact b64Char_ne_colon _ hc.symm
  | case3 b1 b2 =>
    intro hc
    simp [btoa] at hc
    rcases hc with hc | hc | hc <;> exact b64Char_ne_colon _ hc.symm
  | case4 b1 b2 b3 rest ih =>
    intro hc
    simp [btoa] at hc
    rcases hc with hc | hc | hc | hc | hc
    · exact b64Char_ne_colon _ hc.symm
    · exact b64Char_ne_colon _ hc.symm
    · exact b64Char_ne_colon _ hc.symm
    · exact b64Char_ne_colon _ hc.symm
    · exact ih hc

/-- Base64 decoding inverts encoding on genuine byte buffers. -/
theorem atob_btoa (bs : Bytes) (h : ∀ b ∈ bs, b < 256) : atob (btoa bs) = some bs := by
  induction bs using btoa.induct with
  | case1 => simp [btoa, atob]
  | case2 b1 =>
    have hb1 : b1 < 256 := h b1 (by simp)
    have h1 : b64Index (b64Char (b1 / 4)) = some (b1 / 4) :=
      b64Index_b64Char_small _ (by omega)
    have h2 : b64Index (b64Char (b1 % 4 * 16)) = some (b1 % 4 * 16) :=
      b64Index_b64Char_small _ (by omega)
    simp [btoa, atob, h1, h2]
    omega
  | case3 b1 b2 =>
    have hb1 : b1 < 256 := h b1 (by simp)
    have hb2 : b2 < 256 := h b2 (by simp)
    have h1 : b64Index (b64Char (b1 / 4)) = some (b1 / 4) :=
      b64Index_b64Char_small _ (by omega)
    have h2 : b64Index (b64Char (b1 % 4 * 16 + b2 / 16)) = some (b1 % 4 * 16 + b2 / 16) :=
      b64Index_b64Char_small _ (by omega)
    have h3 : b64Index (b64Char (b2 % 16 * 4)) = some (b2 % 16 * 4) :=
      b64Index_b64Char_small _ (by omega)
    simp [btoa, atob, h1, h2, h3, b64Char_ne_eqsign]
    constructor <;> omega
  | case4 b1 b2 b3 rest ih =>
    have hb1 : b1 < 256 := h b1 (by simp)
    have hb2 : b2 < 256 := h b2 (by simp)
    have hb3 : b3 < 256 := h b3 (by simp)
    have hrest : ∀ b ∈ rest, b < 256 := fun b hb => h b (by simp [hb])
    have h1 : b64Index (b64Char (b1 / 4)) = some (b1 / 4) :=
      b64Index_b64Char_small _ (by omega)
    have h2 : b64Index (b64Char (b1 % 4 * 16 + b2 / 16)) = some (b1 % 4 * 16 + b2 / 16) :=
      b64Index_b64Char_small _ (by omega)
    have h3 : b64Index (b64Char (b2 % 16 * 4 + b3 / 64)) = some (b2 % 16 * 4 + b3 / 64) :=
      b64Index_b64Char_small _ (by omega)
    have h4 : b64Index (b64Char (b3 % 64)) = some (b3 % 64) :=
      b64Index_b64Char_small _ (by omega)
    simp [btoa, atob, h1, h2, h3, h4, b64Char_ne_eqsign, ih hrest]
    refine ⟨?_, ?_, ?_⟩ <;> omega

theorem jsSplit_no_sep (sep : Char) (l : List Char) (h : sep ∉ l) :
    jsSplit sep l = [l] := by
  induction l with
  | nil => simp [jsSplit]
  | cons c rest ih =>
    simp at h
    have hc : c ≠ sep := fun he => h.1 he.symm
    rw [jsSplit, ih h.2]
    simp [hc]

theorem jsSplit_sandwich (sep : Char) (s1 s2 : List Char)
    (h1 : sep ∉ s1) (h2 : sep ∉ s2) :
    jsSplit sep (s1 ++ sep :: s2) = [s1, s2] := by
  induction s1 with
  | nil =>
    simp
    rw [jsSplit, jsSplit_no_sep sep s2 h2]
    simp
  | cons c rest ih =>
    simp at h1
    have hc : c ≠ sep := fun he => h1.1 he.symm
    have := ih h1.2
    rw [List.cons_append, jsSplit, this]
    simp [hc]

/-! ## Claim theorems -/

/-- C5: for every plaintext m, with the matching shared key cached on both
ends, decrypt(encrypt(m, peer), senderPeer) returns m unchanged; and decrypt
never raises: with no cached key for the sender it returns the input
unchanged, with an input that does not split into exactly two
delimiter-separated parts it returns the input unchanged, and on
cryptographic failure it returns the fixed sentinel string. The hypotheses
state the contract of the platform primitives: the iv and ciphertext are
byte buffers, AES-GCM decryption inverts encryption under the same key and
iv, and the text decoder inverts the encoder. -/
theorem C5_encrypt_decrypt_roundtrip {Key : Type} (A : AeadScheme Key)
    (encode : List Char → Bytes) (decode : Bytes → List Char)
    (skSender skReceiver : String → Option Key) (k : Key) (iv : Bytes)
    (m : List Char) (recipientId senderId : String)
    (hk1 : skSender recipientId = some k)
    (hk2 : skReceiver senderId = some k)
    (hiv : ∀ b ∈ iv, b < 256)
    (hct : ∀ b ∈ A.enc k iv (encode m), b < 256)
    (haead : A.dec k iv (A.enc k iv (encode m)) = some (encode m))
    (hdecode : decode (encode m) = m) :
    (CryptoService.encrypt A encode skSender iv m recipientId).map
        (fun c => CryptoService.decrypt A decode skReceiver c senderId) = some m ∧
    (∀ s sid, skReceiver sid = none →
      CryptoService.decrypt A decode skReceiver s sid = s) ∧
    (∀ s sid k2, skReceiver sid = some k2 → (jsSplit ':' s).length ≠ 2 →
      CryptoService.decrypt A decode skReceiver s sid = s) ∧
    (∀ s sid k2 p1 p2 ivB ctB, skReceiver sid = some k2 →
      jsSplit ':' s = [p1, p2] → atob p1 = some ivB → atob p2 = some ctB →
      A.dec k2 ivB ctB = none →
      CryptoService.decrypt A decode skReceiver s sid = decryptFailedSentinel) := by
  refine ⟨?_, ?_, ?_, ?_⟩
  · have hsplit : jsSplit ':' (btoa iv ++ ':' :: btoa (A.enc k iv (encode m)))
        = [btoa iv, btoa (A.enc k iv (encode m))] :=
      jsSplit_sandwich ':' _ _ (colon_not_mem_btoa iv) (colon_not_mem_btoa _)
    simp [CryptoService.encrypt, hk1, CryptoService.decrypt, hk2, hsplit,
      atob_btoa iv hiv, atob_btoa _ hct, haead, hdecode, List.getD]
  · intro s sid h
    simp [CryptoService.decrypt, h]
  · intro s sid k2 h hlen
    simp [CryptoService.decrypt, h, hlen]
  · intro s sid k2 p1 p2 ivB ctB h hs h1 h2 hdec
    simp [CryptoService.decrypt, h, hs, h1, h2, hdec, List.getD]

/-- Witness for C5 at concrete inputs: alice and bob share a key, and the
plaintext "hi" survives the encrypt-then-decrypt round trip. -/
theorem C5_encrypt_decrypt_roundtrip_witness :
    (CryptoService.encrypt idAead charEncode demoKeys iv0 ("hi").data "bob").map
        (fun c => CryptoService.decrypt idAead charDecode demoKeys c "alice")
      = some ("hi").data :=
  (C5_encrypt_decrypt_roundtrip idAead charEncode charDecode demoKeys demoKeys () iv0
    ("hi").data "bob" "alice" (by decide) (by decide) (by decide) (by decide)
    (by decide) (by decide)).1

/-- C1 counterexample: with the socket open but no cached shared key for the
recipient, sendMessage hands the wire a CHAT payload whose content is the
original plaintext (encrypt produced nothing — it threw, and the catch block
at src/services/socketService.ts:456-462 falls back to plaintext), so the
payload does not carry ciphertext produced by encrypt. -/
theorem C1_counterexample :
    sendMessage idAead charEncode noKeys iv0 true ⟨("hi").data, "alice"⟩ "bob"
      = Except.ok ("bob", ⟨("hi").data, "alice"⟩) ∧
    CryptoService.encrypt idAead charEncode noKeys iv0 ("hi").data "bob" = none := by
  constructor
  · rfl
  · rfl

/-- C1 amended: for every CHAT envelope handed to the wire by sendMessage,
the payload content is the ciphertext produced by encrypt whenever a shared
key for the recipient is cached; when no key is cached (encrypt throws),
sendMessage falls back to sending the original plaintext content. -/
theorem C1_chat_content_encrypted_or_fallback {Key : Type} (A : AeadScheme Key)
    (encode : List Char → Bytes) (sharedKeys : String → Option Key) (iv : Bytes)
    (message : ChatMessage) (recipientId : String) :
    (∀ k, sharedKeys recipientId = some k →
      sendMessage A encode sharedKeys iv true message recipientId
        = Except.ok (recipientId,
            { message with
                content := btoa iv ++ ':' :: btoa (A.enc k iv (encode message.content)) })) ∧
    (sharedKeys recipientId = none →
      sendMessage A encode sharedKeys iv true message recipientId
        = Except.ok (recipientId, message)) := by
  constructor
  · intro k hk
    simp [sendMessage, CryptoService.encrypt, hk]
  · intro hk
    simp [sendMessage, CryptoService.encrypt, hk]

/-- Witness for the amended C1 at concrete inputs: with a cached key the sent
content is the encrypted transport string; with no key it is the plaintext. -/
theorem C1_chat_content_encrypted_or_fallback_witness :
    sendMessage idAead charEncode demoKeys iv0 true ⟨("hi").data, "alice"⟩ "bob"
      = Except.ok ("bob",
          ⟨btoa iv0 ++ ':' :: btoa (idAead.enc () iv0 (charEncode ("hi").data)), "alice"⟩) ∧
    sendMessage idAead charEncode noKeys iv0 true ⟨("hi").data, "alice"⟩ "bob"
      = Except.ok ("bob", ⟨("hi").data, "alice"⟩) :=
  ⟨(C1_chat_content_encrypted_or_fallback idAead charEncode demoKeys iv0
      ⟨("hi").data, "alice"⟩ "bob").1 () (by decide),
    (C1_chat_content_encrypted_or_fallback idAead charEncode noKeys iv0
      ⟨("hi").data, "alice"⟩ "bob").2 (by decide)⟩

/-- C7 counterexample: at a concrete input where the durable write of the
offline queue fails, the queueing operation still returns with no error for
the caller (the failure was caught and only logged at
src/server/index.js:33-35), leaving the disk without the message; and a
REGISTER whose accounts write fails still replies success. So a persistence
failure is silently swallowed, contradicting the claim. -/
theorem C7_counterexample :
    (queueOfflineMessageDisk false ⟨[], []⟩ "bob" "CHAT" "x" 0).2 = none ∧
    (queueOfflineMessageDisk false ⟨[], []⟩ "bob" "CHAT" "x" 0).1.cache
      = [("bob", [⟨"CHAT", "x", 0⟩])] ∧
    (queueOfflineMessageDisk false ⟨[], []⟩ "bob" "CHAT" "x" 0).1.disk = [] ∧
    registerHandler (fun s => s) false [] [] 7 "u1" "pw"
      = ([("u1", "pw")], [], [Action.send 7 (WireMsg.registerResult true none)]) := by
  refine ⟨by decide, by decide, by decide, by decide⟩

/-- C7 amended: a failed durable write of the offline queue (or of the
accounts store) is caught and logged inside the save helper and never
propagated to the caller of the queueing or registration operation; the
in-memory store is still updated, and REGISTER reports success regardless of
whether the write was durable (durable only when the write succeeds). -/
theorem C7_write_failure_swallowed (writeOk : Bool) (st : OfflineDisk)
    (target mtype payload : String) (now : Nat) (hash : String → String)
    (accounts accountsDisk : List (String × String)) (ws : Nat) (u pw : String) :
    (queueOfflineMessageDisk writeOk st target mtype payload now).2 = none ∧
    (target ≠ "" →
      (queueOfflineMessageDisk writeOk st target mtype payload now).1.cache
          = queueOfflineMessage st.cache target mtype payload now ∧
        (queueOfflineMessageDisk writeOk st target mtype payload now).1.disk
          = (if writeOk then queueOfflineMessage st.cache target mtype payload now
              else st.disk)) ∧
    (u ≠ "" → pw ≠ "" → alGet accounts u = none →
      (registerHandler hash writeOk accounts accountsDisk ws u pw).2.2
          = [Action.send ws (WireMsg.registerResult true none)] ∧
        (registerHandler hash writeOk accounts accountsDisk ws u pw).2.1
          = (if writeOk then alSet accounts u (hash pw) else accountsDisk)) := by
  refine ⟨?_, ?_, ?_⟩
  · unfold queueOfflineMessageDisk
    split
    · rfl
    · rfl
  · intro ht
    simp [queueOfflineMessageDisk, ht, saveOfflineStore]
  · intro hu hpw hacct
    simp [registerHandler, hu, hpw, hacct]

theorem relayOfflineSeq_present (target : String) (ht : target ≠ "") :
    ∀ (es : List QueuedMsg) (store : List (String × List QueuedMsg)) (q : List QueuedMsg),
      alGet store target = some q →
      relayOfflineSeq store target es = alSet store target (q ++ es) := by
  intro es
  induction es with
  | nil =>
    intro store q h
    simp [relayOfflineSeq, alSet_eq_self store target q h]
  | cons m rest ih =>
    intro store q h
    have hstep : queueOfflineMessage store target m.type m.payload m.queuedAt
        = alSet store target (q ++ [m]) := by
      simp [queueOfflineMessage, ht, h]
    have hrec := ih (alSet store target (q ++ [m])) (q ++ [m]) (alGet_alSet_self _ _ _)
    calc relayOfflineSeq store target (m :: rest)
        = relayOfflineSeq (alSet store target (q ++ [m])) target rest := by
          rw [relayOfflineSeq, List.foldl_cons, hstep]; rfl
      _ = alSet (alSet store target (q ++ [m])) target ((q ++ [m]) ++ rest) := hrec
      _ = alSet store target (q ++ (m :: rest)) := by
          rw [alSet_alSet]; simp

/-- C2: N CHAT envelopes relayed to an offline target are appended to that
user's queue in arrival order; the flush on the next authentication sends
every queued envelope in stored order with type and payload identical to the
original (when the fresh socket is open), and the per-user queue is deleted
afterwards — deleted even if the socket was not open mid-flush (the third
conjunct holds for every readyState environment). -/
theorem C2_offline_queue_fifo (rs : Nat → Nat)
    (store0 : List (String × List QueuedMsg)) (target : String)
    (es : List QueuedMsg) (ws : Nat)
    (ht : target ≠ "") (hes : es ≠ []) (h0 : alGet store0 target = none) :
    alGet (relayOfflineSeq store0 target es) target = some es ∧
    (rs ws = 1 →
      (deliverQueuedMessages rs (relayOfflineSeq store0 target es) target ws).2
        = es.map fun m => (ws, WireMsg.envelope m.type m.payload)) ∧
    (deliverQueuedMessages rs (relayOfflineSeq store0 target es) target ws).1 = store0 ∧
    alGet (deliverQueuedMessages rs (relayOfflineSeq store0 target es) target ws).1 target
      = none := by
  obtain ⟨e, rest, rfl⟩ : ∃ e rest, es = e :: rest := by
    cases es with
    | nil => exact absurd rfl hes
    | cons e r => exact ⟨e, r, rfl⟩
  have hstep : queueOfflineMessage store0 target e.type e.payload e.queuedAt
      = alSet store0 target [e] := by
    simp [queueOfflineMessage, ht, h0]
  have hstore : relayOfflineSeq store0 target (e :: rest)
      = alSet store0 target (e :: rest) := by
    calc relayOfflineSeq store0 target (e :: rest)
        = relayOfflineSeq (alSet store0 target [e]) target rest := by
          rw [relayOfflineSeq, List.foldl_cons, hstep]; rfl
      _ = alSet (alSet store0 target [e]) target ([e] ++ rest) :=
          relayOfflineSeq_present target ht rest _ _ (alGet_alSet_self _ _ _)
      _ = alSet store0 target (e :: rest) := by rw [alSet_alSet]; simp
  have hget : alGet (relayOfflineSeq store0 target (e :: rest)) target
      = some (e :: rest) := by
    rw [hstore]; exact alGet_alSet_self _ _ _
  have hdel : (deliverQueuedMessages rs (relayOfflineSeq store0 target (e :: rest)) target ws).1
      = store0 := by
    rw [hstore]
    simp [deliverQueuedMessages, alGet_alSet_self]
    exact alErase_alSet_of_absent _ _ _ h0
  refine ⟨hget, ?_, hdel, ?_⟩
  · intro hr
    rw [hstore]
    simp [deliverQueuedMessages, alGet_alSet_self, hr, filterMap_some_eq_map]
  · rw [hdel]; exact h0

/-- Witness for C2 at concrete inputs: two CHAT envelopes queued for an
offline bob are flushed in order on an open socket and the queue vanishes. -/
theorem C2_offline_queue_fifo_witness :
    alGet (relayOfflineSeq [] "bob" [⟨"CHAT", "m1", 0⟩, ⟨"CHAT", "m2", 1⟩]) "bob"
        = some [⟨"CHAT", "m1", 0⟩, ⟨"CHAT", "m2", 1⟩] ∧
    (deliverQueuedMessages (fun _ => 1)
          (relayOfflineSeq [] "bob" [⟨"CHAT", "m1", 0⟩, ⟨"CHAT", "m2", 1⟩]) "bob" 5).2
        = [QueuedMsg.mk "CHAT" "m1" 0, QueuedMsg.mk "CHAT" "m2" 1].map
            (fun m => (5, WireMsg.envelope m.type m.payload)) ∧
    (deliverQueuedMessages (fun _ => 1)
          (relayOfflineSeq [] "bob" [⟨"CHAT", "m1", 0⟩, ⟨"CHAT", "m2", 1⟩]) "bob" 5).1
        = [] ∧
    alGet (deliverQueuedMessages (fun _ => 1)
          (relayOfflineSeq [] "bob" [⟨"CHAT", "m1", 0⟩, ⟨"CHAT", "m2", 1⟩]) "bob" 5).1 "bob"
        = none := by
  have h := C2_offline_queue_fifo (fun _ => 1) [] "bob"
    [⟨"CHAT", "m1", 0⟩, ⟨"CHAT", "m2", 1⟩] 5 (by decide) (by decide) (by decide)
  exact ⟨h.1, h.2.1 rfl, h.2.2.1, h.2.2.2⟩

theorem authHandler_clients (hash : String → String) (rs : Nat → Nat)
    (st : ServerState) (ctx : ConnCtx) (ws : Nat) (msg : AuthMsg) :
    (authHandler hash rs st ctx ws msg).1.clients = st.clients ∨
    (authHandler hash rs st ctx ws msg).1.clients
      = alSet st.clients msg.userId ⟨ws, msg.username, msg.publicKey⟩ := by
  unfold authHandler
  split
  · left; rfl
  · split
    · left; rfl
    · split
      · left; rfl
      · right; rfl

theorem closeHandler_clients (rs : Nat → Nat) (st : ServerState) (ctx : ConnCtx)
    (ws : Nat) :
    (closeHandler rs st ctx ws).1.clients = st.clients ∨
    (closeHandler rs st ctx ws).1.clients = alErase st.clients ctx.currentUserId := by
  unfold closeHandler
  split
  · left; rfl
  · split
    · split
      · right; rfl
      · left; rfl
    · left; rfl

/-- C3: the session registry keeps at most one live Session per userId — its
key list stays duplicate-free across the AUTH and close handlers; a second
successful authentication for a userId with a live (open) prior session
first sends that connection FORCE_LOGOUT and closes it, and only then
installs the new Session, which then owns the registry entry; and a close of
the evicted stale connection, arriving after the newer login, does not
remove the newer Session. -/
theorem C3_single_session (hash : String → String) (rs : Nat → Nat)
    (st : ServerState) (ctx : ConnCtx) (ws : Nat) (msg : AuthMsg) :
    ((st.clients.map Prod.fst).Nodup →
      ((authHandler hash rs st ctx ws msg).1.clients.map Prod.fst).Nodup ∧
      ((closeHandler rs st ctx ws).1.clients.map Prod.fst).Nodup) ∧
    (∀ old : ClientInfo, msg.userId ≠ "" → msg.password ≠ "" →
      alGet st.accounts msg.userId = some (hash msg.password) →
      alGet st.clients msg.userId = some old → rs old.conn = 1 →
      ((authHandler hash rs st ctx ws msg).2.2).take 3
          = [Action.send old.conn WireMsg.forceLogout, Action.close old.conn,
              Action.installSession msg.userId ws] ∧
      alGet (authHandler hash rs st ctx ws msg).1.clients msg.userId
        = some ⟨ws, msg.username, msg.publicKey⟩) ∧
    (∀ ci : ClientInfo, ctx.currentUserId ≠ "" →
      alGet st.clients ctx.currentUserId = some ci → ci.conn ≠ ws →
      closeHandler rs st ctx ws = (st, [])) := by
  refine ⟨?_, ?_, ?_⟩
  · intro hnd
    constructor
    · rcases authHandler_clients hash rs st ctx ws msg with h | h
      · rw [h]; exact hnd
      · rw [h]; exact alSet_nodup_keys _ _ _ hnd
    · rcases closeHandler_clients rs st ctx ws with h | h
      · rw [h]; exact hnd
      · rw [h]; exact alErase_nodup_keys _ _ hnd
  · intro old hu hpw hacct hold hopen
    constructor
    · simp [authHandler, hu, hpw, hacct, hold, hopen]
    · simp [authHandler, hu, hpw, hacct, hold, hopen, alGet_alSet_self]
  · intro ci hcu hget hne
    simp [closeHandler, hcu, hget, hne]

/-- Witness for C3 at concrete inputs: u1 is registered and logged in on
connection 3; a second login on connection 9 kicks connection 3 first and
owns the registry, and a stale close of connection 3 afterwards would leave
the registry untouched. -/
theorem C3_single_session_witness :
    (((authHandler (fun s => s) (fun _ => 1)
        ⟨[("u1", ⟨3, none, none⟩)], [], [("u1", "pw")]⟩ ⟨"u1", true⟩ 9
        ⟨"u1", "pw", none, none⟩).1.clients.map Prod.fst).Nodup ∧
      ((closeHandler (fun _ => 1)
        ⟨[("u1", ⟨3, none, none⟩)], [], [("u1", "pw")]⟩ ⟨"u1", true⟩ 9).1.clients.map
          Prod.fst).Nodup) ∧
    (((authHandler (fun s => s) (fun _ => 1)
        ⟨[("u1", ⟨3, none, none⟩)], [], [("u1", "pw")]⟩ ⟨"u1", true⟩ 9
        ⟨"u1", "pw", none, none⟩).2.2).take 3
        = [Action.send 3 WireMsg.forceLogout, Action.close 3,
            Action.installSession "u1" 9] ∧
      alGet (authHandler (fun s => s) (fun _ => 1)
        ⟨[("u1", ⟨3, none, none⟩)], [], [("u1", "pw")]⟩ ⟨"u1", true⟩ 9
        ⟨"u1", "pw", none, none⟩).1.clients "u1" = some ⟨9, none, none⟩) ∧
    closeHandler (fun _ => 1) ⟨[("u1", ⟨3, none, none⟩)], [], [("u1", "pw")]⟩
        ⟨"u1", true⟩ 9
      = (⟨[("u1", ⟨3, none, none⟩)], [], [("u1", "pw")]⟩, []) := by
  have h := C3_single_session (fun s => s) (fun _ => 1)
    ⟨[("u1", ⟨3, none, none⟩)], [], [("u1", "pw")]⟩ ⟨"u1", true⟩ 9
    ⟨"u1", "pw", none, none⟩
  exact ⟨h.1 (by decide),
    h.2.1 ⟨3, none, none⟩ (by decide) (by decide) (by decide) (by decide) rfl,
    h.2.2 ⟨3, none, none⟩ (by decide) (by decide) (by decide)⟩

/-- C9: a failed AUTH (INVALID_INPUT, NOT_REGISTERED or BAD_PASSWORD) sends
only the failure AUTH_RESULT and changes no server state: the clients map,
the offline queue and the accounts store are exactly what they were (so no
FORCE_LOGOUT or eviction of a live session, no queue flush, no STATUS_UPDATE
broadcast), and the connection stays unauthenticated. -/
theorem C9_auth_failure_pure (hash : String → String) (rs : Nat → Nat)
    (st : ServerState) (ctx : ConnCtx) (ws : Nat) (msg : AuthMsg)
    (hfail : msg.userId = "" ∨ msg.password = "" ∨
      alGet st.accounts msg.userId = none ∨
      ∃ h0, alGet st.accounts msg.userId = some h0 ∧ h0 ≠ hash msg.password) :
    (authHandler hash rs st ctx ws msg).1 = st ∧
    (∃ reason, (reason = "INVALID_INPUT" ∨ reason = "NOT_REGISTERED" ∨
        reason = "BAD_PASSWORD") ∧
      (authHandler hash rs st ctx ws msg).2.2
        = [Action.send ws (WireMsg.authResult false (some reason))]) ∧
    (authHandler hash rs st ctx ws msg).2.1.authenticated = ctx.authenticated := by
  by_cases h1 : msg.userId = "" ∨ msg.password = ""
  · refine ⟨?_, ⟨"INVALID_INPUT", by simp, ?_⟩, ?_⟩ <;> simp [authHandler, h1]
  · rcases hfail with h | h | h | ⟨h0, hg, hne⟩
    · exact absurd (Or.inl h) h1
    · exact absurd (Or.inr h) h1
    · refine ⟨?_, ⟨"NOT_REGISTERED", by simp, ?_⟩, ?_⟩ <;> simp [authHandler, h1, h]
    · refine ⟨?_, ⟨"BAD_PASSWORD", by simp, ?_⟩, ?_⟩ <;>
        simp [authHandler, h1, hg, hne]

/-- Witness for C9 at a concrete input: AUTH for an unregistered user leaves
the empty server untouched and replies NOT_REGISTERED only. -/
theorem C9_auth_failure_pure_witness :
    (authHandler (fun s => s) (fun _ => 1) ⟨[], [], []⟩ ⟨"", false⟩ 4
        ⟨"u1", "pw", none, none⟩).1 = ⟨[], [], []⟩ ∧
    (∃ reason, (reason = "INVALID_INPUT" ∨ reason = "NOT_REGISTERED" ∨
        reason = "BAD_PASSWORD") ∧
      (authHandler (fun s => s) (fun _ => 1) ⟨[], [], []⟩ ⟨"", false⟩ 4
          ⟨"u1", "pw", none, none⟩).2.2
        = [Action.send 4 (WireMsg.authResult false (some reason))]) ∧
    (authHandler (fun s => s) (fun _ => 1) ⟨[], [], []⟩ ⟨"", false⟩ 4
        ⟨"u1", "pw", none, none⟩).2.1.authenticated = false :=
  C9_auth_failure_pure (fun s => s) (fun _ => 1) ⟨[], [], []⟩ ⟨"", false⟩ 4
    ⟨"u1", "pw", none, none⟩ (Or.inr (Or.inr (Or.inl (by decide))))

/-- C8: a FRIEND_REMOVE or MESSAGE_DELIVERED relayed to a target with no
live session adds no queue entry, sends nothing to anyone, and leaves all
server state unchanged; and whenever a relay changes the offline store, the
message type was CHAT, FRIEND_REQUEST or FRIEND_ACCEPT — only those are
queued for offline targets. -/
theorem C8_advisory_drop (rs : Nat → Nat) (st : ServerState) (ctx : ConnCtx)
    (mtype targetUserId payload : String) (now : Nat)
    (hauth : ctx.authenticated = true)
    (hoff : ∀ t : ClientInfo, alGet st.clients targetUserId = some t → rs t.conn ≠ 1) :
    ((mtype = "FRIEND_REMOVE" ∨ mtype = "MESSAGE_DELIVERED") →
      relayHandler rs st ctx mtype targetUserId payload now = (st, [])) ∧
    (∀ mt, (relayHandler rs st ctx mt targetUserId payload now).1.offlineStore
        ≠ st.offlineStore →
      (mt = "CHAT" ∨ mt = "FRIEND_REQUEST" ∨ mt = "FRIEND_ACCEPT")) := by
  have hdrop : ∀ mt, ¬(mt = "CHAT" ∨ mt = "FRIEND_REQUEST" ∨ mt = "FRIEND_ACCEPT") →
      relayHandler rs st ctx mt targetUserId payload now = (st, []) := by
    intro mt hmt
    rcases hg : alGet st.clients targetUserId with _ | t
    · simp [relayHandler, hauth, hg, hmt]
    · simp [relayHandler, hauth, hg, hoff t hg, hmt]
  constructor
  · intro h
    apply hdrop
    rcases h with rfl | rfl <;> decide
  · intro mt hne
    by_cases hq : mt = "CHAT" ∨ mt = "FRIEND_REQUEST" ∨ mt = "FRIEND_ACCEPT"
    · exact hq
    · exact absurd (by rw [hdrop mt hq]) hne

/-- Witness for C8 at a concrete input: FRIEND_REMOVE to the offline bob on
an empty registry changes nothing and produces no sends. -/
theorem C8_advisory_drop_witness :
    relayHandler (fun _ => 0) ⟨[], [], []⟩ ⟨"a", true⟩ "FRIEND_REMOVE" "bob" "p" 0
      = (⟨[], [], []⟩, []) :=
  (C8_advisory_drop (fun _ => 0) ⟨[], [], []⟩ ⟨"a", true⟩ "FRIEND_REMOVE" "bob" "p" 0
    rfl (fun t ht => by simp [alGet] at ht)).1 (Or.inl rfl)

/-- C6: on every successful authentication the server performs the post-auth
actions in exactly the order the spec enumerates — evict any prior session
(FORCE_LOGOUT, close), install the new Session, ONLINE_USERS_LIST of the
other registered userIds, USER_KEYS_LIST of the other online users with
keys, offline-queue flush in stored order, STATUS_UPDATE online to the other
registered sessions, then AUTH_RESULT success — and the online broadcast
never targets the authenticating connection itself. Hypotheses: valid
credentials, the new socket and all registered sockets open (sessions are
live), and the new connection handle not registered to anyone else. -/
theorem C6_post_auth_order (hash : String → String) (rs : Nat → Nat)
    (st : ServerState) (ctx : ConnCtx) (ws : Nat) (msg : AuthMsg)
    (hu : msg.userId ≠ "") (hpw : msg.password ≠ "")
    (hacct : alGet st.accounts msg.userId = some (hash msg.password))
    (hws : rs ws = 1)
    (hall : ∀ p ∈ st.clients, rs p.2.conn = 1)
    (halias : ∀ p ∈ st.clients, p.2.conn ≠ ws) :
    (authHandler hash rs st ctx ws msg).2.2
      = specPostAuthActions st ws msg.userId msg.username msg.publicKey ∧
    (∀ m : WireMsg, Action.send ws m ∉
      broadcastStatus rs (alSet st.clients msg.userId ⟨ws, msg.username, msg.publicKey⟩)
        msg.userId "online" msg.publicKey) := by
  have hflush : (deliverQueuedMessages rs st.offlineStore msg.userId ws).2
      = ((alGet st.offlineStore msg.userId).getD []).map
          (fun m => (ws, WireMsg.envelope m.type m.payload)) := by
    rcases hq : alGet st.offlineStore msg.userId with _ | msgs
    · simp [deliverQueuedMessages, hq]
    · rcases msgs with _ | ⟨m, ms⟩
      · simp [deliverQueuedMessages, hq]
      · simp [deliverQueuedMessages, hq, hws, filterMap_some_eq_map]
  have hstatus : broadcastStatus rs
      (alSet st.clients msg.userId ⟨ws, msg.username, msg.publicKey⟩)
      msg.userId "online" msg.publicKey
      = (alSet st.clients msg.userId ⟨ws, msg.username, msg.publicKey⟩).filterMap
          (fun p => if p.1 = msg.userId then none
            else some (Action.send p.2.conn
              (WireMsg.statusUpdate msg.userId "online" msg.publicKey))) := by
    unfold broadcastStatus
    apply List.filterMap_congr
    intro p hp
    by_cases hpu : p.1 = msg.userId
    · simp [hpu]
    · have hp1 : rs p.2.conn = 1 := by
        rcases alSet_mem _ _ _ p hp with he | hmem
        · exact absurd (by rw [he]) hpu
        · exact hall p hmem
      simp [hpu, hp1]
  constructor
  · rcases hold : alGet st.clients msg.userId with _ | old
    · simp [authHandler, specPostAuthActions, hu, hpw, hacct, hold, hflush, hstatus,
        Function.comp]
    · have hopen : rs old.conn = 1 := hall (msg.userId, old) (alGet_mem _ _ _ hold)
      simp [authHandler, specPostAuthActions, hu, hpw, hacct, hold, hopen, hflush,
        hstatus, Function.comp]
  · intro m hm
    simp only [broadcastStatus, List.mem_filterMap] at hm
    obtain ⟨p, hp, hpe⟩ := hm
    by_cases hpu : p.1 = msg.userId
    · simp [hpu] at hpe
    · by_cases hr1 : rs p.2.conn = 1
      · simp [hpu, hr1] at hpe
        rcases alSet_mem _ _ _ p hp with he | hmem
        · exact hpu (by rw [he])
        · exact halias p hmem hpe.1
      · simp [hpu, hr1] at hpe

/-- Witness for C6 at concrete inputs: u2 (registered, owning one queued
CHAT) authenticates on connection 9 while u1 is online on connection 3. -/
theorem C6_post_auth_order_witness :
    (authHandler (fun s => s) (fun _ => 1)
        ⟨[("u1", ⟨3, none, some "K1"⟩)], [("u2", [⟨"CHAT", "m", 0⟩])], [("u2", "pw")]⟩
        ⟨"", false⟩ 9 ⟨"u2", "pw", some "K2", some "Bob"⟩).2.2
      = specPostAuthActions
          ⟨[("u1", ⟨3, none, some "K1"⟩)], [("u2", [⟨"CHAT", "m", 0⟩])], [("u2", "pw")]⟩
          9 "u2" (some "Bob") (some "K2") ∧
    (∀ m : WireMsg, Action.send 9 m ∉
      broadcastStatus (fun _ => 1)
        (alSet [("u1", ⟨3, none, some "K1"⟩)] "u2" ⟨9, some "Bob", some "K2"⟩)
        "u2" "online" (some "K2")) :=
  C6_post_auth_order (fun s => s) (fun _ => 1)
    ⟨[("u1", ⟨3, none, some "K1"⟩)], [("u2", [⟨"CHAT", "m", 0⟩])], [("u2", "pw")]⟩
    ⟨"", false⟩ 9 ⟨"u2", "pw", some "K2", some "Bob"⟩
    (by decide) (by decide) (by decide) rfl (by decide) (by decide)

theorem getD_append_cons {α : Type} (pre : List α) (u : α) (t : List α) (d : α) :
    (pre ++ u :: t).getD pre.length d = u := by
  rw [List.getD_append_right pre (u :: t) d pre.length (le_refl _)]
  simp

/-- The exhaustion lemma behind C4: from an in-progress attempt on the
endpoint at position pre.length with a fresh retry counter, a run of
always-failing closes performs exactly MAX_ATTEMPTS_PER_ENDPOINT
same-endpoint retries in state RECONNECTING, then advances through the
remaining endpoints the same way, and ends DISCONNECTED scheduling no
further attempt. -/
theorem failTraceS_exhaust :
    ∀ (rest : List String) (u : String) (pre : List String) (s : ConnState) (b : Bool),
      s ≠ ConnState.CONNECTED →
      (failTraceS ⟨s, pre ++ u :: rest, pre.length, 0, b⟩ (3 * (rest.length + 1))).1
          = List.replicate MAX_ATTEMPTS_PER_ENDPOINT (some u, ConnState.RECONNECTING)
              ++ expectedSchedule rest ∧
      (failTraceS ⟨s, pre ++ u :: rest, pre.length, 0, b⟩ (3 * (rest.length + 1))).2.state
          = ConnState.DISCONNECTED := by
  intro rest
  induction rest with
  | nil =>
    intro u pre s b hs
    have hgu : (pre ++ [u]).getD pre.length "" = u := getD_append_cons pre u [] ""
    simp [failTraceS, onCloseStep, tryNextEndpoint, MAX_ATTEMPTS_PER_ENDPOINT,
      expectedSchedule, hs, hgu, List.replicate]
  | cons v rest ih =>
    intro u pre s b hs
    have hgu : (pre ++ u :: v :: rest).getD pre.length "" = u :=
      getD_append_cons pre u (v :: rest) ""
    have hgv : (pre ++ u :: v :: rest).getD (pre.length + 1) "" = v := by
      have he : pre ++ u :: v :: rest = (pre ++ [u]) ++ v :: rest := by simp
      have hl : pre.length + 1 = (pre ++ [u]).length := by simp
      rw [he, hl, getD_append_cons]
    have harith : 3 * ((v :: rest).length + 1) = 3 * (rest.length + 1) + 1 + 1 + 1 := by
      simp only [List.length_cons]
      ring
    have hlen : ¬ (pre.length + 1 ≥ (pre ++ u :: v :: rest).length) := by
      simp only [List.length_append, List.length_cons]
      omega
    have hstep : ∀ (sm : ClientSM) (n : Nat),
        failTraceS sm (n + 1)
          = (((onCloseStep sm).2, (onCloseStep sm).1.state) ::
              (failTraceS (onCloseStep sm).1 n).1,
            (failTraceS (onCloseStep sm).1 n).2) := by
      intro sm n
      rfl
    have e1 : onCloseStep ⟨s, pre ++ u :: v :: rest, pre.length, 0, b⟩
        = (⟨ConnState.RECONNECTING, pre ++ u :: v :: rest, pre.length, 1, true⟩, some u) := by
      simp [onCloseStep, hs, MAX_ATTEMPTS_PER_ENDPOINT]
      simp [List.getElem_append_right]
    have e2 : onCloseStep ⟨ConnState.RECONNECTING, pre ++ u :: v :: rest, pre.length, 1, true⟩
        = (⟨ConnState.RECONNECTING, pre ++ u :: v :: rest, pre.length, 2, true⟩, some u) := by
      simp [onCloseStep, MAX_ATTEMPTS_PER_ENDPOINT]
      simp [List.getElem_append_right]
    have e3 : onCloseStep ⟨ConnState.RECONNECTING, pre ++ u :: v :: rest, pre.length, 2, true⟩
        = (⟨ConnState.CONNECTING, pre ++ u :: v :: rest, pre.length + 1, 0, true⟩, some v) := by
      simp [onCloseStep, tryNextEndpoint, MAX_ATTEMPTS_PER_ENDPOINT, hlen]
      simp [List.getElem_append_right]
    have ih2 := ih v (pre ++ [u]) ConnState.CONNECTING true (by decide)
    rw [List.append_assoc] at ih2
    simp only [List.length_append, List.length_singleton, List.singleton_append] at ih2
    rw [harith, hstep, e1]
    dsimp only
    rw [hstep, e2]
    dsimp only
    rw [hstep, e3]
    dsimp only
    constructor
    · rw [ih2.1]
      simp [expectedSchedule, MAX_ATTEMPTS_PER_ENDPOINT, List.replicate]
    · exact ih2.2

/-- C4: given endpoints that always fail to open, the client, from connect,
attempts each configured endpoint in order — one CONNECTING attempt then
exactly MAX_ATTEMPTS_PER_ENDPOINT same-endpoint retries, entering
RECONNECTING for each retry — and once every endpoint is exhausted the
machine is DISCONNECTED and schedules no further automatic attempt. -/
theorem C4_retry_bounding (es : List String) (hes : es ≠ []) :
    (connect ⟨ConnState.DISCONNECTED, es, 0, 0, false⟩).2 = some (es.getD 0 "") ∧
    (connect ⟨ConnState.DISCONNECTED, es, 0, 0, false⟩).1.state
      = ConnState.CONNECTING ∧
    ((connect ⟨ConnState.DISCONNECTED, es, 0, 0, false⟩).2,
        (connect ⟨ConnState.DISCONNECTED, es, 0, 0, false⟩).1.state) ::
        (failTraceS (connect ⟨ConnState.DISCONNECTED, es, 0, 0, false⟩).1
          (3 * es.length)).1
      = expectedSchedule es ∧
    (failTraceS (connect ⟨ConnState.DISCONNECTED, es, 0, 0, false⟩).1
        (3 * es.length)).2.state = ConnState.DISCONNECTED := by
  obtain ⟨u, rest, rfl⟩ : ∃ u rest, es = u :: rest := by
    cases es with
    | nil => exact absurd rfl hes
    | cons u r => exact ⟨u, r, rfl⟩
  have hconn : connect ⟨ConnState.DISCONNECTED, u :: rest, 0, 0, false⟩
      = (⟨ConnState.CONNECTING, u :: rest, 0, 0, false⟩, some u) := by
    simp [connect, tryNextEndpoint]
  have hex := failTraceS_exhaust rest u [] ConnState.CONNECTING false (by decide)
  simp only [List.nil_append, List.length_nil] at hex
  have hcount : 3 * (u :: rest).length = 3 * (rest.length + 1) := by
    simp [List.length_cons]
  rw [hconn]
  refine ⟨rfl, rfl, ?_, ?_⟩
  · rw [hcount]
    simp [hex.1, expectedSchedule]
  · rw [hcount]
    exact hex.2

/-- Witness for C4 at a concrete two-endpoint list: the full schedule of
attempts and states, ending DISCONNECTED. -/
theorem C4_retry_bounding_witness :
    (connect ⟨ConnState.DISCONNECTED, ["ws://a:1", "ws://b:2"], 0, 0, false⟩).2
        = some (["ws://a:1", "ws://b:2"].getD 0 "") ∧
    (connect ⟨ConnState.DISCONNECTED, ["ws://a:1", "ws://b:2"], 0, 0, false⟩).1.state
        = ConnState.CONNECTING ∧
    ((connect ⟨ConnState.DISCONNECTED, ["ws://a:1", "ws://b:2"], 0, 0, false⟩).2,
        (connect ⟨ConnState.DISCONNECTED, ["ws://a:1", "ws://b:2"], 0, 0, false⟩).1.state) ::
        (failTraceS (connect ⟨ConnState.DISCONNECTED, ["ws://a:1", "ws://b:2"], 0, 0, false⟩).1
          (3 * (["ws://a:1", "ws://b:2"] : List String).length)).1
        = expectedSchedule ["ws://a:1", "ws://b:2"] ∧
    (failTraceS (connect ⟨ConnState.DISCONNECTED, ["ws://a:1", "ws://b:2"], 0, 0, false⟩).1
        (3 * (["ws://a:1", "ws://b:2"] : List String).length)).2.state
        = ConnState.DISCONNECTED :=
  C4_retry_bounding ["ws://a:1", "ws://b:2"] (by decide)

/-- C10: connect is a no-op only in states CONNECTED and CONNECTING; invoked
in RECONNECTING with a same-endpoint retry timer pending it is not ignored —
it resets the endpoint index to 0 and starts a new connection attempt while
the pending retry timer stays armed (connect clears nothing, and the
setTimeout handle armed at src/services/socketService.ts:346 is never
stored), so the pending retry and the new attempt can both run. -/
theorem C10_connect_during_reconnect (sm : ClientSM) :
    (sm.state = ConnState.CONNECTED → connect sm = (sm, none)) ∧
    (sm.state = ConnState.CONNECTING → connect sm = (sm, none)) ∧
    (sm.state = ConnState.RECONNECTING → sm.retryTimerPending = true →
      sm.endpointList ≠ [] →
      (connect sm).1.state = ConnState.CONNECTING ∧
      (connect sm).1.currentEndpointIndex = 0 ∧
      (connect sm).2 = some (sm.endpointList.getD 0 "") ∧
      (connect sm).1.retryTimerPending = true) := by
  refine ⟨?_, ?_, ?_⟩
  · intro h
    simp [connect, h]
  · intro h
    simp [connect, h]
  · intro h hr hne
    have hpos : 0 < sm.endpointList.length := List.length_pos.mpr hne
    simp [connect, h, hne, tryNextEndpoint, Nat.not_le.mpr hpos, hr]

/-- Witness for C10 at concrete states: connect ignored when CONNECTED and
when CONNECTING, but honored during RECONNECTING with the retry pending. -/
theorem C10_connect_during_reconnect_witness :
    connect ⟨ConnState.CONNECTED, ["ws://a:1"], 0, 1, false⟩
        = (⟨ConnState.CONNECTED, ["ws://a:1"], 0, 1, false⟩, none) ∧
    connect ⟨ConnState.CONNECTING, ["ws://a:1"], 0, 1, false⟩
        = (⟨ConnState.CONNECTING, ["ws://a:1"], 0, 1, false⟩, none) ∧
    ((connect ⟨ConnState.RECONNECTING, ["ws://a:1", "ws://b:2"], 1, 1, true⟩).1.state
        = ConnState.CONNECTING ∧
      (connect ⟨ConnState.RECONNECTING, ["ws://a:1", "ws://b:2"], 1, 1, true⟩).1.currentEndpointIndex
        = 0 ∧
      (connect ⟨ConnState.RECONNECTING, ["ws://a:1", "ws://b:2"], 1, 1, true⟩).2
        = some ((["ws://a:1", "ws://b:2"] : List String).getD 0 "") ∧
      (connect ⟨ConnState.RECONNECTING, ["ws://a:1", "ws://b:2"], 1, 1, true⟩).1.retryTimerPending
        = true) :=
  ⟨(C10_connect_during_reconnect ⟨ConnState.CONNECTED, ["ws://a:1"], 0, 1, false⟩).1 rfl,
    (C10_connect_during_reconnect ⟨ConnState.CONNECTING, ["ws://a:1"], 0, 1, false⟩).2.1 rfl,
    (C10_connect_during_reconnect
      ⟨ConnState.RECONNECTING, ["ws://a:1", "ws://b:2"], 1, 1, true⟩).2.2 rfl rfl
      (by decide)⟩

/-- Witness for the amended C7 at concrete inputs with a failing write. -/
theorem C7_write_failure_swallowed_witness :
    (queueOfflineMessageDisk false ⟨[], []⟩ "carol" "CHAT" "y" 3).2 = none ∧
    ((queueOfflineMessageDisk false ⟨[], []⟩ "carol" "CHAT" "y" 3).1.cache
        = queueOfflineMessage [] "carol" "CHAT" "y" 3 ∧
      (queueOfflineMessageDisk false ⟨[], []⟩ "carol" "CHAT" "y" 3).1.disk
        = (if false then queueOfflineMessage [] "carol" "CHAT" "y" 3 else [])) ∧
    ((registerHandler (fun s => s) false [] [] 9 "u2" "pw2").2.2
        = [Action.send 9 (WireMsg.registerResult true none)] ∧
      (registerHandler (fun s => s) false [] [] 9 "u2" "pw2").2.1
        = (if false then alSet [] "u2" "pw2" else [])) := by
  have h := C7_write_failure_swallowed false ⟨[], []⟩ "carol" "CHAT" "y" 3
    (fun s => s) [] [] 9 "u2" "pw2"
  exact ⟨h.1, h.2.1 (by decide), h.2.2 (by decide) (by decide) (by decide)⟩

end QChat
